import Mathlib

/-!
# Shadow-RC control core: shallow embedding and verification

This file embeds the control logic of the Shadow-RC repository (an Arduino
Mega R2-D2 controller) in Lean and proves properties of it.

Modelling conventions, used consistently below:

* C `int` values are modelled as `ℤ`; C `unsigned long` timestamps
  (`millis()`/`micros()` values) as `ℕ`.  Elapsed-time expressions
  `now - t` on `unsigned long` are modelled with truncated `ℕ`
  subtraction; theorems about them carry the hypothesis `t ≤ now`
  where the distinction could matter, matching the hardware's
  monotone clock.  Where wrap-around is itself the point (the pulse
  decoder's `micros()` width computation) arithmetic is done
  explicitly modulo `2 ^ 32`, and the assignment of an
  `unsigned long` to a C `int` (16 bit on AVR) is modelled by
  `toInt16`.
* C `float` arithmetic is modelled over `ℝ`; `pow(x, y)` is real
  `rpow` (written `x ^ y` with a real exponent).  A C cast of a
  `float` to `int` truncates toward zero and is modelled by `truncR`;
  a cast of a non-negative `float` to `unsigned long` is `Nat.floor`.
* C integer division (used by Arduino's `map`) truncates toward zero
  and is modelled by `Int.tdiv`.
* Calls to `random(lo, hi)` (uniform in `[lo, hi-1]`) are modelled
  by oracle inputs supplied to each tick; predicates such as
  `ValidRand` record the ranges the oracle values are drawn from.
* Hardware reads (`pulseIn`, the kill-switch pin scan
  `isComboModeActive`, the suppression flag `isMP3Suppressed`) are
  inputs to each tick.  Serial writes to the Sabertooth/SyRen motor
  controllers and to the MP3 trigger are collected as emitted `Cmd`
  values; `Serial.print` debug logging is not modelled.
-/

namespace ShadowRC

/-! ## Arduino / C primitives -/

/-- Arduino `constrain(x, lo, hi)`. -/
def constrain (x lo hi : ℤ) : ℤ := max lo (min x hi)

/-- Arduino `map(x, inMin, inMax, outMin, outMax)`:
`(x - inMin) * (outMax - outMin) / (inMax - inMin) + outMin` with C
integer division (truncation toward zero). -/
def amap (x inMin inMax outMin outMax : ℤ) : ℤ :=
  Int.tdiv ((x - inMin) * (outMax - outMin)) (inMax - inMin) + outMin

/-- C cast of a `float` to a signed integer: truncation toward zero. -/
noncomputable def truncR (x : ℝ) : ℤ := if 0 ≤ x then ⌊x⌋ else ⌈x⌉

/-- `applyExpoCurve(input, curve, limit)` from `ManualMode.cpp` /
`CarpetMode.cpp` / `HybridMode.cpp` (the three copies have the same
body; in `HybridMode.cpp` the limit is the file's `speedLimit`):

```
float normalized = abs(input) / 127.0;
float curved = pow(normalized, curve) * limit;
return (input >= 0) ? (int)curved : -(int)curved;
``` -/
noncomputable def applyExpoCurve (input : ℤ) (curve : ℝ) (limit : ℤ) : ℤ :=
  let normalized : ℝ := ((|input| : ℤ) : ℝ) / 127
  let curved : ℝ := normalized ^ curve * (limit : ℝ)
  if 0 ≤ input then truncR curved else -truncR curved

/-! ## Pulse decoder (`PWMInputHandler.cpp`)

One monitored channel; `ch2`/`ch1b` handlers are textually identical
to the `ch1` pair up to renaming.  `value` is the C `volatile int`
channel value (16-bit on the AVR target), `start` the
`unsigned long` timestamp recorded on the rising edge. -/

structure PWMChannel where
  value : ℤ
  start : ℕ
  deriving DecidableEq

/-- `unsigned long` subtraction `a - b` modulo `2 ^ 32 = 4294967296`. -/
def usub32 (a b : ℕ) : ℕ := (((a : ℤ) - (b : ℤ)) % 4294967296).toNat

/-- Assignment of an `unsigned long` to a 16-bit C `int`. -/
def toInt16 (n : ℕ) : ℤ :=
  if (n % 65536 : ℕ) < 32768 then ((n % 65536 : ℕ) : ℤ)
  else ((n % 65536 : ℕ) : ℤ) - 65536

/-- `ch1_rise()`: record the rising-edge timestamp. -/
def ch1_rise (c : PWMChannel) (nowMicros : ℕ) : PWMChannel :=
  { c with start := nowMicros }

/-- `ch1_fall()`: `ch1_value = micros() - ch1_start;` — the measured
width is published unconditionally. -/
def ch1_fall (c : PWMChannel) (nowMicros : ℕ) : PWMChannel :=
  { c with value := toInt16 (usub32 nowMicros c.start) }

/-! ## MP3 toggle-input path (`MP3Handler.cpp`)

`checkToggleAnyEdge` is the one place in the repository that applies
the `[VALID_PWM_MIN, VALID_PWM_MAX] = [900, 2200]` validity band: an
invalid `pulseIn` reading returns early, leaving `lastState`
untouched and triggering nothing.  The random bank index
`random(startFile, endFile + 1)` is supplied as the oracle `rTrack`. -/

def checkToggleAnyEdge (lastState pwm rTrack : ℤ) : ℤ × Option ℤ :=
  if pwm = 0 ∨ pwm < 900 ∨ 2200 < pwm then (lastState, none)
  else
    let newState : ℤ := if 1700 < pwm then 1 else if pwm < 1300 then 0 else lastState
    if lastState = -1 then (newState, none)
    else if newState ≠ lastState then (newState, some rTrack)
    else (lastState, none)

/-! ## Mode/combo recognizer (`ComboHandler.cpp`, `updateComboHandler`)

The `detectToggleCombo`/`detectMomentaryCombo` calls mutate
`currentCombo`; their combined effect is supplied as the input
`detected` (the value `currentCombo` holds after the detection phase,
equal to the previous value when no edge fired).  The MarcDuino /
MP3 dispatch performed for permitted combos writes to serial devices
only and is not part of the recognizer state. -/

structure ComboState where
  currentCombo : ℤ
  currentMode : ℤ
  lastCombo : ℤ
  comboTimestamp : ℕ
  deriving DecidableEq

def comboResetDelay : ℕ := 1000

def updateComboHandler (s : ComboState) (detected : ℤ) (now : ℕ) : ComboState :=
  let s0 : ComboState := { s with currentCombo := detected }
  -- Mode Switching
  let s1 : ComboState :=
    if 1 ≤ s0.currentCombo ∧ s0.currentCombo ≤ 4 ∧ s0.currentCombo ≠ s0.currentMode
    then { s0 with currentMode := s0.currentCombo, currentCombo := 0 }
    else s0
  -- Handle Combos (whitelist per mode)
  let s2 : ComboState :=
    if s1.currentCombo ≠ s1.lastCombo ∧ 4 < s1.currentCombo then
      if ((s1.currentMode = 1 ∨ s1.currentMode = 4) ∧ s1.currentCombo ≤ 8) ∨
         (s1.currentMode = 3 ∧ s1.currentCombo ≤ 16) ∨ s1.currentMode = 2
      then { s1 with comboTimestamp := now, lastCombo := s1.currentCombo }
      else { s1 with currentCombo := 0, lastCombo := 0 }
    else s1
  -- Auto-expiry of an active action combo
  if 4 < s2.currentCombo ∧ comboResetDelay < now - s2.comboTimestamp
  then { s2 with currentCombo := 0 } else s2

/-! ## Manual mode (`ManualMode.cpp`)

Tunable settings of the file (the active, non-debug copy). -/

def speedLimit : ℤ := 25
def deadZone : ℤ := 0
def domeDeadZone : ℤ := 0
def fineControlMultiplier : ℤ := 2
def domeSpeedLimit : ℤ := 100
def domeFlickThreshold : ℤ := 5
def maxFlickSpeed : ℤ := 20
def domeFlickMinDuration : ℕ := 40
def motorTimeoutMs : ℕ := 50
/-- `expoCurve = 1` (linear). -/
def expoCurve : ℝ := 1

structure ManualState where
  domeInput : ℤ
  currentDomeSpeed : ℤ
  lastSentDomeSpeed : ℤ
  lastDrive : ℤ
  lastTurn : ℤ
  savedTurnSpeed : ℤ
  lastDriveCommandTime : ℕ
  lastTurnCommandTime : ℕ
  domeStartTime : ℕ
  domeFlickActive : Bool
  wasTurnInputActive : Bool
  lastKillState : Bool

structure ManualInput where
  rawTurn : ℤ
  rawDrive : ℤ
  rawDome : ℤ
  killActive : Bool

structure ManualOutput where
  driveCmd : ℤ
  turnCmd : ℤ
  domeCmd : Option ℤ

/-- `map(constrain(raw, 1000, 2000), 1000, 2000, -127, 127)` — the
drive/turn axis mapping. -/
def mapAxis (raw : ℤ) : ℤ := amap (constrain raw 1000 2000) 1000 2000 (-127) 127

/-- Deadzone filter: `if (abs(v) <= deadZone) v = 0;`. -/
def deadZoned (v : ℤ) : ℤ := if |v| ≤ deadZone then 0 else v

/-- The dome-axis mapping of `loopManualMode` (both gains are `1.00`):
`map` to `[0, 100]` above centre, to `[-100, 0]` below. -/
def mapDome (raw : ℤ) : ℤ :=
  let c := constrain raw 1000 2000
  if 1500 ≤ c then amap c 1500 2000 0 100 else amap c 1000 1500 (-100) 0

/-- The effective turn input after the deadzone and the
`abs(mappedDrive) > 40` clamp. -/
def mappedTurnOf (i : ManualInput) : ℤ :=
  let mt := deadZoned (mapAxis i.rawTurn)
  if 40 < |deadZoned (mapAxis i.rawDrive)| then constrain mt (-100) 100 else mt

/-- All statics start at zero / false. -/
def initManualState : ManualState :=
  { domeInput := 0, currentDomeSpeed := 0, lastSentDomeSpeed := 0,
    lastDrive := 0, lastTurn := 0, savedTurnSpeed := 0,
    lastDriveCommandTime := 0, lastTurnCommandTime := 0, domeStartTime := 0,
    domeFlickActive := false, wasTurnInputActive := false, lastKillState := false }

/-- One frame of `loopManualMode()` (the body after the 5 ms frame
gate), with the raw channel reads and the kill-switch scan supplied
as inputs.  `driveCmd`/`turnCmd` are the values passed to
`ST.drive`/`ST.turn`; `domeCmd` is the value passed to
`domeMotor.motor` when one is sent.  The dome gains are the file's
`1.00`. -/
noncomputable def loopManualMode (s : ManualState) (i : ManualInput) (now : ℕ) :
    ManualState × ManualOutput :=
  let domeInput : ℤ := mapDome i.rawDome
  let mappedDrive : ℤ := deadZoned (mapAxis i.rawDrive)
  let mappedTurn : ℤ := mappedTurnOf i
  -- `if (mappedDrive == 0 && mappedTurn != 0) lastTurn = constrain(lastTurn, -40, 40);`
  -- (overwritten below in every branch, retained for fidelity)
  let lastTurnA : ℤ :=
    if mappedDrive = 0 ∧ mappedTurn ≠ 0 then constrain s.lastTurn (-40) 40 else s.lastTurn
  let rawCurvedDome : ℤ := applyExpoCurve domeInput expoCurve domeSpeedLimit
  let curvedDome0 : ℤ :=
    if s.domeFlickActive then rawCurvedDome else rawCurvedDome * fineControlMultiplier
  let curvedDrive : ℤ := applyExpoCurve mappedDrive expoCurve speedLimit
  let curvedTurn : ℤ := applyExpoCurve mappedTurn expoCurve speedLimit
  -- drive / turn logic
  let lastDrive0 : ℤ := curvedDrive
  let lastDriveCommandTime1 : ℕ := now
  let lastTurn1 : ℤ :=
    if mappedTurn = 0 ∧ s.wasTurnInputActive then 0
    else if mappedTurn = 0 then 0
    else curvedTurn
  let savedTurnSpeed1 : ℤ := if mappedTurn = 0 then s.savedTurnSpeed else curvedTurn
  let lastTurnCommandTime1 : ℕ := if mappedTurn = 0 then s.lastTurnCommandTime else now
  let wasTurnInputActive1 : Bool := if mappedTurn = 0 then false else true
  let _ := lastTurnA
  -- kill switch
  let lastDrive1 : ℤ := if i.killActive then 0 else lastDrive0
  let lastTurn2 : ℤ := if i.killActive then 0 else lastTurn1
  let curvedDome : ℤ := if i.killActive then 0 else curvedDome0
  -- dome logic with flick control
  let domeBranch : ℤ × ℕ × Bool :=
    if |domeInput| < domeDeadZone then
      if s.domeFlickActive ∧ now - s.domeStartTime < domeFlickMinDuration
      then (constrain s.lastSentDomeSpeed (-maxFlickSpeed) maxFlickSpeed,
            s.domeStartTime, s.domeFlickActive)
      else (0, s.domeStartTime, false)
    else
      (curvedDome,
       if domeFlickThreshold ≤ |curvedDome| then now else s.domeStartTime,
       if domeFlickThreshold ≤ |curvedDome| then true else s.domeFlickActive)
  let currentDomeSpeed1 : ℤ := domeBranch.1
  -- safety timeouts
  let lastDrive2 : ℤ :=
    if motorTimeoutMs < now - lastDriveCommandTime1 then 0 else lastDrive1
  let lastTurn3 : ℤ :=
    if motorTimeoutMs < now - lastTurnCommandTime1 then 0 else lastTurn2
  -- motor outputs
  let domeCmd : Option ℤ :=
    if currentDomeSpeed1 ≠ s.lastSentDomeSpeed then some currentDomeSpeed1 else none
  let lastSent1 : ℤ :=
    if currentDomeSpeed1 ≠ s.lastSentDomeSpeed then currentDomeSpeed1 else s.lastSentDomeSpeed
  ({ domeInput := domeInput,
     currentDomeSpeed := currentDomeSpeed1,
     lastSentDomeSpeed := lastSent1,
     lastDrive := lastDrive2,
     lastTurn := lastTurn3,
     savedTurnSpeed := savedTurnSpeed1,
     lastDriveCommandTime := lastDriveCommandTime1,
     lastTurnCommandTime := lastTurnCommandTime1,
     domeStartTime := domeBranch.2.1,
     domeFlickActive := domeBranch.2.2,
     wasTurnInputActive := wasTurnInputActive1,
     lastKillState := i.killActive },
   { driveCmd := lastDrive2, turnCmd := lastTurn3, domeCmd := domeCmd })

/-! ## Automated mode (`AutomatedMode.cpp`, randomized-automation variant)

Constants of the file. -/

def domeMinAngle : ℤ := 10
def domeMaxAngle : ℤ := 45
def minSpeed : ℤ := 25
def maxSpeed : ℤ := 32
def baseSpeed : ℤ := 30
def movesBeforeCenter : ℤ := 2
def minDelayMs : ℕ := 8000
def maxDelayMs : ℕ := 12000
def modeDelayMillis : ℕ := 3000

/-- `baseMsPerDegree = 1700.0 / 90.0` (90° at speed 30 = 1700 ms). -/
noncomputable def baseMsPerDegree : ℝ := 1700 / 90
/-- `curveFactor = 1.4`. -/
noncomputable def curveFactor : ℝ := 7 / 5

/-- `adjustedMsPerDegree` before the direction-specific correction:
`baseMsPerDegree * pow(baseSpeed / (float)sequenceSpeed, curveFactor)`. -/
noncomputable def domeRate (sequenceSpeed : ℤ) : ℝ :=
  baseMsPerDegree * (((baseSpeed : ℝ) / (sequenceSpeed : ℝ)) ^ curveFactor)

/-- A serial command to a motor controller or the MP3 trigger. -/
inductive Cmd
  | motor (motorId : ℤ) (value : ℤ)
  | play (track : ℤ)
  deriving DecidableEq

structure AutoState where
  lastMoveTime : ℕ
  nextMoveDelay : ℕ
  lastMP3Time : ℕ
  nextMP3Delay : ℕ
  domeMoving : Bool
  domeOffset : ℤ
  moveCount : ℤ
  currentDomeSpeed : ℤ
  domeDirection : ℤ
  domeEndTime : ℕ
  sequenceSpeed : ℤ
  sequenceStarted : Bool
  lastMoveDirection : ℤ
  lastKillState : Bool
  modeEntryTime : ℕ

/-- Oracle for one tick's `random(...)` draws (`ValidRand` below
records the ranges).  The MP3 category choice and the in-bank index
are folded into `mp3Track`. -/
structure AutoRand where
  moveDelay : ℕ
  speed : ℤ
  dirBit : ℕ
  angle : ℤ
  mp3Track : ℤ
  mp3Delay : ℕ

def ValidRand (r : AutoRand) : Prop :=
  minDelayMs ≤ r.moveDelay ∧ r.moveDelay ≤ maxDelayMs ∧
  minSpeed ≤ r.speed ∧ r.speed ≤ maxSpeed ∧
  r.dirBit ≤ 1 ∧
  domeMinAngle ≤ r.angle ∧ r.angle ≤ domeMaxAngle

/-- One call of the Automated-mode `runDomeAutomation()`.  Returned
commands are the `domeMotor.motor(1, v)` writes of that call. -/
noncomputable def runDomeAutomation (s : AutoState) (now : ℕ) (r : AutoRand) :
    AutoState × List Cmd :=
  if s.domeMoving then
    if s.domeEndTime ≤ now then ({ s with domeMoving := false }, [Cmd.motor 1 0])
    else (s, [])
  else if now - s.lastMoveTime < s.nextMoveDelay ∨ now - s.modeEntryTime < modeDelayMillis
  then (s, [])
  else
    let s1 : AutoState := { s with lastMoveTime := now, nextMoveDelay := r.moveDelay }
    -- lock a speed for this sequence
    let speed : ℤ := if s1.sequenceStarted then s1.sequenceSpeed else r.speed
    if movesBeforeCenter ≤ s1.moveCount ∨ (1 / 2 : ℝ) < |((s1.domeOffset : ℤ) : ℝ)| then
      -- correction ("return to center") move
      let direction : ℤ := if 0 ≤ s1.domeOffset then -1 else 1
      let angle : ℝ := |((s1.domeOffset : ℤ) : ℝ)|
      let adjustedMsPerDegree : ℝ := domeRate speed
      let duration : ℕ := ⌊angle * adjustedMsPerDegree⌋₊
      let actualAngleMoved : ℝ := (duration : ℝ) / adjustedMsPerDegree
      ({ s1 with
           moveCount := 0,
           sequenceStarted := false,
           sequenceSpeed := speed,
           domeOffset := truncR ((s1.domeOffset : ℝ) + (direction : ℝ) * actualAngleMoved),
           domeEndTime := now + duration,
           domeDirection := direction,
           currentDomeSpeed := speed,
           domeMoving := true },
       [Cmd.motor 1 (direction * speed)])
    else
      -- free move
      let direction : ℤ := if r.dirBit = 0 then -1 else 1
      let angle : ℝ := (r.angle : ℝ)
      let adjustedMsPerDegree : ℝ :=
        domeRate speed * (if 0 < direction then 53 / 50 else 24 / 25)
      let duration : ℕ := ⌊angle * adjustedMsPerDegree⌋₊
      let actualAngleMoved : ℝ := (duration : ℝ) / adjustedMsPerDegree
      ({ s1 with
           moveCount := s1.moveCount + 1,
           sequenceStarted := true,
           sequenceSpeed := speed,
           domeOffset := truncR ((s1.domeOffset : ℝ) + (direction : ℝ) * actualAngleMoved),
           domeEndTime := now + duration,
           domeDirection := direction,
           currentDomeSpeed := speed,
           domeMoving := true,
           lastMoveDirection := direction },
       [Cmd.motor 1 (direction * speed)])

/-- One call of the Automated-mode `runAutoMP3()`: when due, the
cadence timestamp and next random interval are updated whether or
not the trigger is suppressed; the track is submitted only when not
suppressed. -/
def runAutoMP3 (s : AutoState) (now : ℕ) (suppressed : Bool) (r : AutoRand) :
    AutoState × List Cmd :=
  if s.nextMP3Delay < now - s.lastMP3Time then
    ({ s with lastMP3Time := now, nextMP3Delay := r.mp3Delay },
     if suppressed then [] else [Cmd.play r.mp3Track])
  else (s, [])

/-- One iteration of the Automated-mode `loopAutomatedMode()`:
`isComboModeActive(2)` is the input `killActive`, `isMP3Suppressed()`
the input `suppressed`.  (`lastKillState` is assigned inside an
edge-logging `if`; the net state effect equals the unconditional
assignment modelled here.)  While the kill switch is active neither
`runDomeAutomation` nor `runAutoMP3` is called. -/
noncomputable def loopAutomatedMode (s : AutoState) (now : ℕ)
    (killActive suppressed : Bool) (r : AutoRand) : AutoState × List Cmd :=
  let s0 : AutoState := { s with lastKillState := killActive }
  if killActive then (s0, [])
  else
    let d := runDomeAutomation s0 now r
    let m := runAutoMP3 d.1 now suppressed r
    (m.1, d.2 ++ m.2)

/-- Initial values of the Automated-mode statics; `modeEntryTime` is
the `millis()` value recorded by `setupAutomatedMode()`. -/
def initAutoState (t0 : ℕ) : AutoState :=
  { lastMoveTime := 0, nextMoveDelay := 0, lastMP3Time := 0, nextMP3Delay := 0,
    domeMoving := false, domeOffset := 0, moveCount := 0, currentDomeSpeed := 0,
    domeDirection := 0, domeEndTime := 0, sequenceSpeed := baseSpeed,
    sequenceStarted := false, lastMoveDirection := 0, lastKillState := false,
    modeEntryTime := t0 }

/-- States reachable by iterating `loopAutomatedMode` from the
initial state, with every `random(...)` draw in its documented
range. -/
inductive AutoReach (t0 : ℕ) : AutoState → Prop
  | init : AutoReach t0 (initAutoState t0)
  | step (s : AutoState) (now : ℕ) (killActive suppressed : Bool) (r : AutoRand) :
      AutoReach t0 s → ValidRand r →
      AutoReach t0 (loopAutomatedMode s now killActive suppressed r).1

/-! ## Hybrid mode audio cadence (`HybridMode.cpp`, `runAutoMP3`)

Unlike the Automated variant, the suppression test is part of the
firing condition: a due-but-suppressed cadence takes no action at
all. -/

structure HybridMP3State where
  lastMP3Time : ℕ
  nextMP3Delay : ℕ
  modeEntryTime : ℕ
  deriving DecidableEq

def runAutoMP3Hybrid (s : HybridMP3State) (now : ℕ) (suppressed : Bool)
    (rTrack : ℤ) (rDelay : ℕ) : HybridMP3State × List Cmd :=
  if now - s.modeEntryTime < modeDelayMillis then (s, [])
  else if s.nextMP3Delay < now - s.lastMP3Time ∧ suppressed = false then
    ({ s with lastMP3Time := now, nextMP3Delay := rDelay }, [Cmd.play rTrack])
  else (s, [])

/-! ## Helper lemmas -/

lemma constrain_mem {x lo hi : ℤ} (h : lo ≤ hi) :
    lo ≤ constrain x lo hi ∧ constrain x lo hi ≤ hi := by
  unfold constrain
  constructor
  · exact le_max_left lo (min x hi)
  · exact max_le h (min_le_right x hi)

lemma floor_intCast_div_real (a : ℤ) (n : ℕ) :
    ⌊(a : ℝ) / (n : ℝ)⌋ = a / (n : ℤ) := by
  have h : ((a : ℝ) / (n : ℝ)) = (((a : ℚ) / (n : ℚ) : ℚ) : ℝ) := by
    push_cast
    ring
  rw [h, Rat.floor_cast, Rat.floor_intCast_div_natCast]

lemma truncR_of_nonneg {x : ℝ} (h : 0 ≤ x) : truncR x = ⌊x⌋ := if_pos h

lemma truncR_eq_zero {x : ℝ} (h1 : -1 < x) (h2 : x < 1) : truncR x = 0 := by
  unfold truncR
  by_cases h : 0 ≤ x
  · rw [if_pos h, Int.floor_eq_zero_iff]
    exact ⟨h, h2⟩
  · rw [if_neg h, Int.ceil_eq_zero_iff]
    exact ⟨h1, le_of_not_le h⟩

lemma truncR_abs_le {x : ℝ} {n : ℤ} (h : |x| ≤ (n : ℝ)) : |truncR x| ≤ n := by
  unfold truncR
  rcases abs_le.mp h with ⟨hlo, hhi⟩
  have h0n : 0 ≤ n := by
    have h0 : (0:ℝ) ≤ (n : ℝ) := le_trans (abs_nonneg x) h
    exact_mod_cast h0
  by_cases hx : 0 ≤ x
  · rw [if_pos hx]
    have h1 : (0:ℤ) ≤ ⌊x⌋ := Int.floor_nonneg.mpr hx
    have h2 : ⌊x⌋ ≤ n := by
      have h3 := Int.floor_le_floor hhi
      rwa [Int.floor_intCast] at h3
    rw [abs_of_nonneg h1]
    exact h2
  · rw [if_neg hx]
    have hx0 : x ≤ 0 := le_of_not_le hx
    have h1 : ⌈x⌉ ≤ 0 := Int.ceil_le.mpr (by exact_mod_cast hx0)
    have h2 : -n ≤ ⌈x⌉ := by
      have h3 : (((-n : ℤ)) : ℝ) ≤ x := by push_cast; linarith
      have h4 := Int.ceil_le_ceil h3
      rwa [Int.ceil_intCast] at h4
    exact abs_le.mpr ⟨h2, h1.trans h0n⟩

lemma applyExpoCurve_one (x l : ℤ) (hl : 0 ≤ l) :
    applyExpoCurve x 1 l = if 0 ≤ x then (|x| * l) / 127 else -((|x| * l) / 127) := by
  simp only [applyExpoCurve]
  have hc : (((|x| : ℤ) : ℝ) / 127) ^ (1:ℝ) * (l : ℝ) = ((|x| * l : ℤ) : ℝ) / ((127:ℕ) : ℝ) := by
    rw [Real.rpow_one]
    push_cast
    ring
  rw [hc]
  have h0 : (0:ℝ) ≤ ((|x| * l : ℤ) : ℝ) / ((127:ℕ) : ℝ) := by
    apply div_nonneg
    · exact_mod_cast mul_nonneg (abs_nonneg x) hl
    · norm_num
  rw [truncR_of_nonneg h0, floor_intCast_div_real]
  norm_num

lemma applyExpoCurve_abs_le (x : ℤ) (c : ℝ) (l : ℤ)
    (hx : |x| ≤ 127) (hc : 0 ≤ c) (hl : 0 ≤ l) : |applyExpoCurve x c l| ≤ l := by
  simp only [applyExpoCurve]
  set normalized : ℝ := ((|x| : ℤ) : ℝ) / 127 with hn
  have hn0 : 0 ≤ normalized := by
    apply div_nonneg
    · exact_mod_cast abs_nonneg x
    · norm_num
  have hn1 : normalized ≤ 1 := by
    rw [hn, div_le_one (by norm_num : (0:ℝ) < 127)]
    exact_mod_cast hx
  have hcurved0 : 0 ≤ normalized ^ c * (l : ℝ) :=
    mul_nonneg (Real.rpow_nonneg hn0 c) (by exact_mod_cast hl)
  have hcurved1 : normalized ^ c * (l : ℝ) ≤ (l : ℝ) := by
    have h1 : normalized ^ c ≤ 1 := Real.rpow_le_one hn0 hn1 hc
    calc normalized ^ c * (l : ℝ) ≤ 1 * (l : ℝ) := by
          apply mul_le_mul_of_nonneg_right h1
          exact_mod_cast hl
      _ = (l : ℝ) := one_mul _
  have htr : |truncR (normalized ^ c * (l : ℝ))| ≤ l := by
    apply truncR_abs_le
    rw [abs_of_nonneg hcurved0]
    exact hcurved1
  by_cases hx0 : 0 ≤ x
  · rwa [if_pos hx0]
  · rw [if_neg hx0, abs_neg]
    exact htr

lemma applyExpoCurve_zero_of_pos (c : ℝ) (l : ℤ) (hc : 0 < c) :
    applyExpoCurve 0 c l = 0 := by
  simp only [applyExpoCurve]
  norm_num
  rw [Real.zero_rpow (ne_of_gt hc)]
  norm_num
  unfold truncR
  norm_num

lemma applyExpoCurve_neg (x : ℤ) (c : ℝ) (l : ℤ) (hc : 0 < c) :
    applyExpoCurve (-x) c l = -applyExpoCurve x c l := by
  rcases lt_trichotomy x 0 with hx | hx | hx
  · unfold applyExpoCurve
    rw [abs_neg, if_pos (by omega : (0:ℤ) ≤ -x), if_neg (not_le.mpr hx), neg_neg]
  · subst hx
    rw [neg_zero, applyExpoCurve_zero_of_pos c l hc, neg_zero]
  · unfold applyExpoCurve
    rw [abs_neg, if_neg (by omega : ¬ (0:ℤ) ≤ -x), if_pos hx.le]

lemma applyExpoCurve_sign_nonneg (x : ℤ) (c : ℝ) (l : ℤ) (hl : 0 ≤ l) (hx : 0 ≤ x) :
    0 ≤ applyExpoCurve x c l := by
  simp only [applyExpoCurve]
  rw [if_pos hx, truncR_of_nonneg]
  · exact Int.floor_nonneg.mpr (by
      apply mul_nonneg
      · exact Real.rpow_nonneg (by positivity) c
      · exact_mod_cast hl)
  · apply mul_nonneg
    · exact Real.rpow_nonneg (by positivity) c
    · exact_mod_cast hl

lemma amap_mem {x inMin inMax outMin outMax : ℤ} (hx1 : inMin ≤ x) (hx2 : x ≤ inMax)
    (hin : inMin < inMax) (hout : outMin ≤ outMax) :
    outMin ≤ amap x inMin inMax outMin outMax ∧ amap x inMin inMax outMin outMax ≤ outMax := by
  unfold amap
  have hD : (0:ℤ) < inMax - inMin := by omega
  have ha : (0:ℤ) ≤ (x - inMin) * (outMax - outMin) :=
    mul_nonneg (by omega) (by omega)
  rw [Int.tdiv_eq_ediv ha hD.le]
  constructor
  · have h1 : (0:ℤ) ≤ (x - inMin) * (outMax - outMin) / (inMax - inMin) :=
      Int.ediv_nonneg ha hD.le
    omega
  · have h2 : (x - inMin) * (outMax - outMin) ≤ (inMax - inMin) * (outMax - outMin) :=
      mul_le_mul_of_nonneg_right (by omega) (by omega)
    have h3 : (x - inMin) * (outMax - outMin) / (inMax - inMin) ≤
        (inMax - inMin) * (outMax - outMin) / (inMax - inMin) :=
      Int.ediv_le_ediv hD h2
    rw [Int.mul_ediv_cancel_left _ (ne_of_gt hD)] at h3
    omega

lemma domeRate_pos {s : ℤ} (h : 0 < s) : 0 < domeRate s := by
  unfold domeRate baseMsPerDegree baseSpeed curveFactor
  have h1 : (0:ℝ) < (30 : ℝ) / (s : ℝ) := by
    apply div_pos (by norm_num)
    exact_mod_cast h
  have h2 := Real.rpow_pos_of_pos h1 (7/5)
  positivity

lemma one_le_domeRate {s : ℤ} (h1 : 0 < s) (h2 : s ≤ 32) : 1 ≤ domeRate s := by
  unfold domeRate baseMsPerDegree baseSpeed curveFactor
  push_cast
  set x : ℝ := (30 : ℝ) / (s : ℝ) with hx
  have hs0 : (0:ℝ) < (s : ℝ) := by exact_mod_cast h1
  have hs32 : (s : ℝ) ≤ 32 := by exact_mod_cast h2
  have hxpos : 0 < x := div_pos (by norm_num) hs0
  have hxlo : (15/16 : ℝ) ≤ x := by
    rw [hx, le_div_iff₀ hs0]
    linarith
  rcases le_or_lt 1 x with hone | hone
  · have h3 : 1 ≤ x ^ ((7:ℝ)/5) := Real.one_le_rpow hone (by norm_num)
    nlinarith
  · have h3 : x ^ ((2:ℝ)) ≤ x ^ ((7:ℝ)/5) :=
      Real.rpow_le_rpow_of_exponent_ge hxpos hone.le (by norm_num)
    have h6 : (225/256 : ℝ) ≤ x ^ ((7:ℝ)/5) := by
      calc (225/256 : ℝ) = (15/16 : ℝ) ^ (2:ℕ) := by norm_num
        _ ≤ x ^ (2:ℕ) := pow_le_pow_left₀ (by norm_num) hxlo 2
        _ = x ^ ((2:ℝ)) := (Real.rpow_two x).symm
        _ ≤ x ^ ((7:ℝ)/5) := h3
    calc (1:ℝ) ≤ 1700/90 * (225/256 : ℝ) := by norm_num
      _ ≤ 1700 / 90 * x ^ ((7:ℝ)/5) := mul_le_mul_of_nonneg_left h6 (by norm_num)

/-- The duration/actual-angle round trip: `duration = (unsigned long)(angle * a)`
and `actual = duration / a` satisfy `0 ≤ actual ≤ angle` and
`angle - 1/a < actual`, for a positive rate `a`. -/
lemma actualAngle_bounds {angle a : ℝ} (ha : 0 < a) (hang : 0 ≤ angle) :
    0 ≤ (⌊angle * a⌋₊ : ℝ) / a ∧ (⌊angle * a⌋₊ : ℝ) / a ≤ angle ∧
      angle - 1 / a < (⌊angle * a⌋₊ : ℝ) / a := by
  have hprod : 0 ≤ angle * a := mul_nonneg hang ha.le
  refine ⟨by positivity, ?_, ?_⟩
  · rw [div_le_iff₀ ha]
    exact Nat.floor_le hprod
  · have h1 : angle * a < (⌊angle * a⌋₊ : ℝ) + 1 := Nat.lt_floor_add_one _
    have h2 : angle - 1 / a = (angle * a - 1) / a := by
      field_simp
    rw [h2, div_lt_div_iff_of_pos_right ha]
    linarith

/-- A correction move lands the (integer) accumulated offset exactly
on zero whenever the ms-per-degree rate is at least 1. -/
lemma correction_lands_zero (o : ℤ) {a : ℝ} (ha : 1 ≤ a) :
    truncR ((o : ℝ) + (((if 0 ≤ o then (-1:ℤ) else 1) : ℤ) : ℝ) *
      ((⌊|((o : ℤ) : ℝ)| * a⌋₊ : ℝ) / a)) = 0 := by
  have ha0 : (0:ℝ) < a := lt_of_lt_of_le one_pos ha
  have hinv : 1 / a ≤ 1 := by
    rw [div_le_one ha0]
    exact ha
  rcases actualAngle_bounds ha0 (show (0:ℝ) ≤ |((o : ℤ) : ℝ)| from abs_nonneg _)
    with ⟨hb0, hb1, hb2⟩
  by_cases ho : 0 ≤ o
  · have hoa : |((o : ℤ) : ℝ)| = (o : ℝ) := abs_of_nonneg (by exact_mod_cast ho)
    rw [if_pos ho]
    push_cast
    apply truncR_eq_zero
    · linarith
    · linarith
  · have hneg : (o : ℝ) < 0 := by
      have h := not_le.mp ho
      exact_mod_cast h
    have hoa : |((o : ℤ) : ℝ)| = -(o : ℝ) := abs_of_neg hneg
    rw [if_neg ho]
    apply truncR_eq_zero
    · linarith
    · linarith

lemma mapAxis_mem (raw : ℤ) : -127 ≤ mapAxis raw ∧ mapAxis raw ≤ 127 := by
  unfold mapAxis
  rcases constrain_mem (x := raw) (show (1000:ℤ) ≤ 2000 by norm_num) with ⟨h1, h2⟩
  exact amap_mem h1 h2 (by norm_num) (by norm_num)

lemma mapDome_mem (raw : ℤ) : -100 ≤ mapDome raw ∧ mapDome raw ≤ 100 := by
  unfold mapDome
  rcases constrain_mem (x := raw) (show (1000:ℤ) ≤ 2000 by norm_num) with ⟨h1, h2⟩
  by_cases hc : 1500 ≤ constrain raw 1000 2000
  · rw [if_pos hc]
    rcases amap_mem hc h2 (by norm_num) (show (0:ℤ) ≤ 100 by norm_num) with ⟨h3, h4⟩
    omega
  · rw [if_neg hc]
    rcases amap_mem h1 (by omega : constrain raw 1000 2000 ≤ 1500) (by norm_num)
      (show (-100:ℤ) ≤ 0 by norm_num) with ⟨h3, h4⟩
    omega

lemma deadZoned_mem {v lo hi : ℤ} (hlo : lo ≤ 0) (hhi : 0 ≤ hi)
    (h1 : lo ≤ v) (h2 : v ≤ hi) : lo ≤ deadZoned v ∧ deadZoned v ≤ hi := by
  unfold deadZoned
  split_ifs <;> omega

lemma mappedTurnOf_mem (i : ManualInput) :
    -127 ≤ mappedTurnOf i ∧ mappedTurnOf i ≤ 127 := by
  simp only [mappedTurnOf]
  rcases mapAxis_mem i.rawTurn with ⟨h1, h2⟩
  rcases deadZoned_mem (by norm_num) (by norm_num) h1 h2 with ⟨h3, h4⟩
  split_ifs with h
  · rcases constrain_mem (x := deadZoned (mapAxis i.rawTurn))
      (show (-100:ℤ) ≤ 100 by norm_num) with ⟨h5, h6⟩
    omega
  · exact ⟨h3, h4⟩

/-- The drive value sent by one manual-mode frame depends only on the
current raw drive input and the kill switch: the freshness timestamp
is rewritten to `now` on the same frame, so the drive timeout branch
can never fire. -/
lemma loopManualMode_driveCmd (s : ManualState) (i : ManualInput) (now : ℕ) :
    (loopManualMode s i now).2.driveCmd =
      if i.killActive then 0
      else applyExpoCurve (deadZoned (mapAxis i.rawDrive)) expoCurve speedLimit := by
  simp only [loopManualMode, Nat.sub_self]
  norm_num

lemma loopManualMode_driveTime (s : ManualState) (i : ManualInput) (now : ℕ) :
    (loopManualMode s i now).1.lastDriveCommandTime = now := by
  simp only [loopManualMode]

lemma loopManualMode_turnCmd (s : ManualState) (i : ManualInput) (now : ℕ) :
    (loopManualMode s i now).2.turnCmd =
      if mappedTurnOf i = 0 then 0
      else if i.killActive then 0
      else applyExpoCurve (mappedTurnOf i) expoCurve speedLimit := by
  simp only [loopManualMode, Nat.sub_self]
  by_cases hmt : mappedTurnOf i = 0
  · simp [hmt]
  · simp only [hmt, if_neg hmt, if_false, ite_false, Nat.sub_self]
    norm_num [hmt]

lemma loopManualMode_domeSpeed_bound (s : ManualState) (i : ManualInput) (now : ℕ) :
    |(loopManualMode s i now).1.currentDomeSpeed| ≤ domeSpeedLimit * fineControlMultiplier := by
  have hdome : |mapDome i.rawDome| ≤ 127 := by
    rcases mapDome_mem i.rawDome with ⟨h1, h2⟩
    rw [abs_le]
    omega
  have hrcd : |applyExpoCurve (mapDome i.rawDome) expoCurve domeSpeedLimit| ≤ domeSpeedLimit :=
    applyExpoCurve_abs_le _ _ _ hdome (by norm_num [expoCurve]) (by norm_num [domeSpeedLimit])
  simp only [loopManualMode]
  split_ifs <;>
    simp_all [domeSpeedLimit, fineControlMultiplier, constrain, maxFlickSpeed, abs_le] <;>
    omega

lemma loopManualMode_domeCmd_bound (s : ManualState) (i : ManualInput) (now : ℕ) :
    |(loopManualMode s i now).2.domeCmd.getD 0| ≤ domeSpeedLimit * fineControlMultiplier := by
  have h := loopManualMode_domeSpeed_bound s i now
  revert h
  simp only [loopManualMode]
  split_ifs <;> simp_all [domeSpeedLimit, fineControlMultiplier]

/-- Ground evaluations of `applyExpoCurve` with the linear curve. -/
lemma applyExpoCurve_v0 (l : ℤ) (hl : 0 ≤ l) : applyExpoCurve 0 1 l = 0 := by
  rw [applyExpoCurve_one 0 l hl]
  norm_num

lemma applyExpoCurve_v127 : applyExpoCurve 127 1 25 = 25 := by
  rw [applyExpoCurve_one 127 25 (by norm_num)]
  decide

lemma applyExpoCurve_v100 : applyExpoCurve 100 1 100 = 78 := by
  rw [applyExpoCurve_one 100 100 (by norm_num)]
  decide

lemma applyExpoCurve_sign_nonpos (x : ℤ) (c : ℝ) (l : ℤ) (hc : 0 < c) (hl : 0 ≤ l)
    (hx : x ≤ 0) : applyExpoCurve x c l ≤ 0 := by
  rcases eq_or_lt_of_le hx with hx0 | hx0
  · subst hx0
    rw [applyExpoCurve_zero_of_pos c l hc]
  · have h := applyExpoCurve_sign_nonneg (-x) c l hl (by omega)
    rw [applyExpoCurve_neg x c l hc] at h
    omega

/-! ## Claim theorems -/

/-- Claim C1, counterexample: a falling edge measuring pulse width 0
(an invalid reading) overwrites the channel's previously good value
1500 with 0 — the decoder does not hold the last good value. -/
theorem c1_counterexample :
    (ch1_fall ⟨1500, 100⟩ 100).value = 0 ∧
      ¬ (ch1_fall ⟨1500, 100⟩ 100).value = 1500 := by
  constructor <;> decide

/-- Claim C1, amended: the Pulse Decoder publishes every measured
width unconditionally — a reading of 0 or outside [900, 2200] µs does
overwrite the channel value (the value after the falling edge equals
the measured width, whatever it is).  The [900, 2200]/zero validity
band of the spec exists only in the MP3 toggle-input path
(`checkToggleAnyEdge`), where an invalid reading leaves the remembered
state unchanged and triggers nothing; drive-mode consumers instead
clamp the raw value into [1000, 2000] at the point of use. -/
theorem c1_amended (c : PWMChannel) (now : ℕ) (lastState pwm rTrack : ℤ)
    (h1 : c.start ≤ now) (h2 : now - c.start < 32768)
    (hbad : pwm = 0 ∨ pwm < 900 ∨ 2200 < pwm) :
    (ch1_fall c now).value = ((now - c.start : ℕ) : ℤ) ∧
      checkToggleAnyEdge lastState pwm rTrack = (lastState, none) := by
  constructor
  · simp only [ch1_fall, usub32, toInt16]
    split_ifs with h
    · omega
    · omega
  · simp only [checkToggleAnyEdge, if_pos hbad]

/-- Witness for `c1_amended` at a concrete invalid reading: a width
of 3 µs (far below 900) is published, and a `pulseIn` value of 0 is
filtered only in the MP3 path. -/
theorem c1_amended_witness :
    ((100 : ℕ) ≤ 103 ∧ (103 - 100 : ℕ) ≤ 2200 ∧
        ((0:ℤ) = 0 ∨ (0:ℤ) < 900 ∨ (2200:ℤ) < 0)) ∧
      ((ch1_fall ⟨1500, 100⟩ 103).value = ((103 - 100 : ℕ) : ℤ) ∧
        checkToggleAnyEdge 1 0 42 = (1, none)) :=
  ⟨⟨by decide, by decide, Or.inl rfl⟩,
   c1_amended ⟨1500, 100⟩ 103 1 0 42 (by decide) (by decide) (Or.inl rfl)⟩

/-- Claim C2 (a code bug): the manual-mode drive freshness timestamp
is rewritten to `now` on every frame whether or not the input is
fresh, so `now - lastDriveCommandTime` is 0 at the timeout check and
the drive output never becomes 0 from staleness.  Conjuncts: (1) the
drive value sent is a function of the current raw input and kill
switch alone — two frames with the same input send the same drive
regardless of state and time; (2) the freshness timestamp always
equals `now` after a frame; (3) concretely, with the drive input
frozen at 2000 µs and `lastDriveCommandTime = 0`, a frame at
`now = 100000` (stale for 100 s against a 50 ms timeout) still sends
drive 25, not 0. -/
theorem c2_drive_timeout_dead :
    (∀ s t : ManualState, ∀ i : ManualInput, ∀ now now' : ℕ,
        (loopManualMode s i now).2.driveCmd = (loopManualMode t i now').2.driveCmd) ∧
      (∀ s : ManualState, ∀ i : ManualInput, ∀ now : ℕ,
        (loopManualMode s i now).1.lastDriveCommandTime = now) ∧
      (loopManualMode { initManualState with lastDriveCommandTime := 0 }
          ⟨1500, 2000, 1500, false⟩ 100000).2.driveCmd = 25 := by
  refine ⟨?_, ?_, ?_⟩
  · intro s t i now now'
    rw [loopManualMode_driveCmd, loopManualMode_driveCmd]
  · intro s i now
    exact loopManualMode_driveTime s i now
  · rw [loopManualMode_driveCmd]
    have h1 : deadZoned (mapAxis 2000) = 127 := by decide
    simp only [if_neg Bool.false_ne_true, h1, expoCurve, speedLimit]
    exact applyExpoCurve_v127

/-- Claim C9, counterexample: from the initial manual-mode state, a
full-right dome input (2000 µs) with centred drive/turn sends the
dome command 156 = 78 × `fineControlMultiplier`, outside the
documented dome range [-100, 100]. -/
theorem c9_counterexample :
    (loopManualMode initManualState ⟨1500, 1500, 2000, false⟩ 0).2.domeCmd = some 156 ∧
      ¬ |(156:ℤ)| ≤ 100 := by
  constructor
  · have h1 : mapDome 2000 = 100 := by decide
    have h2 : applyExpoCurve 100 expoCurve domeSpeedLimit = 78 := by
      simp only [expoCurve, domeSpeedLimit]
      exact applyExpoCurve_v100
    have h3 : deadZoned (mapAxis 1500) = 0 := by decide
    have h4 : mappedTurnOf ⟨1500, 1500, 2000, false⟩ = 0 := by decide
    simp [loopManualMode, initManualState, h1, h2, h3, h4, domeDeadZone,
      fineControlMultiplier, domeFlickThreshold]
  · decide

/-- Claim C9, amended: drive and turn commands sent by a manual-mode
frame are always within [-127, 127] (indeed within ±`speedLimit`),
for every joystick input, state and time; dome commands, however,
are only bounded by `domeSpeedLimit * fineControlMultiplier = 200`
and can exceed the documented [-100, 100] (see the counterexample). -/
theorem c9_amended (s : ManualState) (i : ManualInput) (now : ℕ) :
    |(loopManualMode s i now).2.driveCmd| ≤ 127 ∧
      |(loopManualMode s i now).2.turnCmd| ≤ 127 ∧
      |(loopManualMode s i now).2.domeCmd.getD 0| ≤ domeSpeedLimit * fineControlMultiplier := by
  refine ⟨?_, ?_, loopManualMode_domeCmd_bound s i now⟩
  · rw [loopManualMode_driveCmd]
    split_ifs
    · norm_num
    · rcases mapAxis_mem i.rawDrive with ⟨h1, h2⟩
      rcases deadZoned_mem (by norm_num) (by norm_num) h1 h2 with ⟨h3, h4⟩
      have h5 : |deadZoned (mapAxis i.rawDrive)| ≤ 127 := abs_le.mpr ⟨h3, h4⟩
      have h6 := applyExpoCurve_abs_le (deadZoned (mapAxis i.rawDrive)) expoCurve speedLimit
        h5 (by norm_num [expoCurve]) (by norm_num [speedLimit])
      simp only [speedLimit] at h6 ⊢
      omega
  · rw [loopManualMode_turnCmd]
    split_ifs
    · norm_num
    · norm_num
    · rcases mappedTurnOf_mem i with ⟨h1, h2⟩
      have h5 : |mappedTurnOf i| ≤ 127 := abs_le.mpr ⟨h1, h2⟩
      have h6 := applyExpoCurve_abs_le (mappedTurnOf i) expoCurve speedLimit
        h5 (by norm_num [expoCurve]) (by norm_num [speedLimit])
      simp only [speedLimit] at h6 ⊢
      omega

/-- Claim C10, counterexample: with curve exponent 0 (allowed by the
claim's "every curve exponent ≥ 0") the function is not odd at
x = 0 — `pow(0, 0) = 1` makes it return the full limit; and for
x = 1, curve 1, limit 25 the result is 0, which does not have the
same sign as the (positive) input. -/
theorem c10_counterexample :
    ¬ (applyExpoCurve (-(0:ℤ)) 0 25 = -applyExpoCurve 0 0 25) ∧
      applyExpoCurve 1 1 25 = 0 ∧ ¬ (0 < applyExpoCurve 1 1 25) := by
  have h : applyExpoCurve 0 0 25 = 25 := by
    simp only [applyExpoCurve]
    norm_num [Real.rpow_zero, truncR_of_nonneg]
  have h1 : applyExpoCurve 1 1 25 = 0 := by
    rw [applyExpoCurve_one 1 25 (by norm_num)]
    decide
  refine ⟨?_, h1, ?_⟩
  · rw [neg_zero, h]
    decide
  · rw [h1]
    decide

/-- Claim C10, amended: for every input x with |x| ≤ 127, every
strictly positive curve exponent and every non-negative limit,
`applyExpoCurve` is odd, never has sign opposite to its input (it can
round small inputs to 0), and its magnitude never exceeds the limit. -/
theorem c10_amended (x : ℤ) (curve : ℝ) (l : ℤ)
    (hx : |x| ≤ 127) (hc : 0 < curve) (hl : 0 ≤ l) :
    applyExpoCurve (-x) curve l = -applyExpoCurve x curve l ∧
      (0 ≤ x → 0 ≤ applyExpoCurve x curve l) ∧
      (x ≤ 0 → applyExpoCurve x curve l ≤ 0) ∧
      |applyExpoCurve x curve l| ≤ l :=
  ⟨applyExpoCurve_neg x curve l hc,
   fun h => applyExpoCurve_sign_nonneg x curve l hl h,
   fun h => applyExpoCurve_sign_nonpos x curve l hc hl h,
   applyExpoCurve_abs_le x curve l hx hc.le hl⟩

/-- Witness for `c10_amended` at x = 64, curve 1, limit 25. -/
theorem c10_amended_witness :
    (|(64:ℤ)| ≤ 127 ∧ (0:ℝ) < 1 ∧ (0:ℤ) ≤ 25) ∧
      (applyExpoCurve (-(64:ℤ)) 1 25 = -applyExpoCurve 64 1 25 ∧
        ((0:ℤ) ≤ 64 → 0 ≤ applyExpoCurve 64 1 25) ∧
        ((64:ℤ) ≤ 0 → applyExpoCurve 64 1 25 ≤ 0) ∧
        |applyExpoCurve 64 1 25| ≤ 25) :=
  ⟨⟨by decide, by norm_num, by decide⟩,
   c10_amended 64 1 25 (by decide) (by norm_num) (by decide)⟩

/-- Claim C6: a detected combo id > 4 that differs from the previous
combo becomes the active combo exactly when permitted by the current
Mode's whitelist — ids ≤ 8 in modes 1 and 4, ids ≤ 16 in mode 3,
all ids in mode 2 (with id > 4 these are the ranges 5–8 / 5–16); a
permitted combo also becomes `lastCombo` and restarts the expiry
timer, while a rejected one is discarded and the active combo resets
to idle (0). -/
theorem c6_mode_whitelist (s : ComboState) (detected : ℤ) (now : ℕ)
    (h4 : 4 < detected) (hne : detected ≠ s.lastCombo) :
    ((((s.currentMode = 1 ∨ s.currentMode = 4) ∧ detected ≤ 8) ∨
        (s.currentMode = 3 ∧ detected ≤ 16) ∨ s.currentMode = 2) →
      (updateComboHandler s detected now).currentCombo = detected ∧
        (updateComboHandler s detected now).lastCombo = detected ∧
        (updateComboHandler s detected now).comboTimestamp = now) ∧
    (¬ (((s.currentMode = 1 ∨ s.currentMode = 4) ∧ detected ≤ 8) ∨
        (s.currentMode = 3 ∧ detected ≤ 16) ∨ s.currentMode = 2) →
      (updateComboHandler s detected now).currentCombo = 0 ∧
        (updateComboHandler s detected now).lastCombo = 0) := by
  simp only [updateComboHandler]
  split_ifs <;> constructor <;> intro hw <;> simp_all <;> omega

/-- Witness for `c6_mode_whitelist`: in mode 3, combo 10 (permitted)
becomes active; in mode 1, combo 10 (not permitted) resets to idle. -/
theorem c6_mode_whitelist_witness :
    ((4 : ℤ) < 10 ∧ (10 : ℤ) ≠ 0 ∧
        (updateComboHandler ⟨0, 3, 0, 0⟩ 10 7).currentCombo = 10 ∧
        (updateComboHandler ⟨0, 3, 0, 0⟩ 10 7).lastCombo = 10) ∧
      ((updateComboHandler ⟨0, 1, 0, 0⟩ 10 7).currentCombo = 0 ∧
        (updateComboHandler ⟨0, 1, 0, 0⟩ 10 7).lastCombo = 0) := by
  have hA := (c6_mode_whitelist ⟨0, 3, 0, 0⟩ 10 7 (by decide) (by decide)).1
    (Or.inr (Or.inl (by exact ⟨rfl, by decide⟩)))
  have hB := (c6_mode_whitelist ⟨0, 1, 0, 0⟩ 10 7 (by decide) (by decide)).2
    (by decide)
  exact ⟨⟨by decide, by decide, hA.1, hA.2.1⟩, hB⟩

/-- Claim C7, counterexample: a detected mode-select combo equal to
the current Mode does not reset the active combo to idle — with
`currentMode = 1`, detecting combo 1 leaves `currentCombo = 1`
(nonzero) after the update. -/
theorem c7_counterexample :
    (updateComboHandler ⟨0, 1, 0, 0⟩ 1 0).currentMode = 1 ∧
      ¬ (updateComboHandler ⟨0, 1, 0, 0⟩ 1 0).currentCombo = 0 := by
  decide

/-- Claim C7, amended: a detected combo id in [1,4] performs a
mode-select only when it differs from the current Mode — then the
Mode becomes the id and the active combo resets to idle (0).  When
it equals the current Mode, the Mode is unchanged (still equal to the
id) but the active combo keeps the id instead of resetting. -/
theorem c7_amended (s : ComboState) (detected : ℤ) (now : ℕ)
    (h1 : 1 ≤ detected) (h4 : detected ≤ 4) :
    (detected ≠ s.currentMode →
      (updateComboHandler s detected now).currentMode = detected ∧
        (updateComboHandler s detected now).currentCombo = 0) ∧
    (detected = s.currentMode →
      (updateComboHandler s detected now).currentMode = s.currentMode ∧
        (updateComboHandler s detected now).currentCombo = detected) := by
  simp only [updateComboHandler]
  split_ifs <;> constructor <;> intro hw <;> simp_all <;> omega

/-- Witness for `c7_amended`: switching from mode 2 to mode 1 via
combo 1. -/
theorem c7_amended_witness :
    ((1 : ℤ) ≤ 1 ∧ (1 : ℤ) ≤ 4 ∧ (1 : ℤ) ≠ 2) ∧
      ((updateComboHandler ⟨0, 2, 0, 0⟩ 1 5).currentMode = 1 ∧
        (updateComboHandler ⟨0, 2, 0, 0⟩ 1 5).currentCombo = 0) :=
  ⟨⟨by decide, by decide, by decide⟩,
   (c7_amended ⟨0, 2, 0, 0⟩ 1 5 (by decide) (by decide)).1 (by decide)⟩

/-- Claim C8, counterexample (Hybrid variant): a due audio cadence
hit while suppressed does not reschedule the next interval — the
state is left completely untouched (so the trigger is effectively
retried as soon as suppression clears), unlike a non-suppressed
firing which advances `lastMP3Time` to `now` and draws a fresh
delay. -/
theorem c8_counterexample :
    ((⟨0, 100, 0⟩ : HybridMP3State).nextMP3Delay <
        4000 - (⟨0, 100, 0⟩ : HybridMP3State).lastMP3Time) ∧
      runAutoMP3Hybrid ⟨0, 100, 0⟩ 4000 true 7 9999 = (⟨0, 100, 0⟩, []) ∧
      (runAutoMP3Hybrid ⟨0, 100, 0⟩ 4000 false 7 9999).1.nextMP3Delay = 9999 ∧
      (runAutoMP3Hybrid ⟨0, 100, 0⟩ 4000 false 7 9999).1.lastMP3Time = 4000 := by
  decide

/-- Claim C8, amended: in the Automated variant the claim holds — a
due suppressed cadence submits no track but advances `lastMP3Time`
and redraws `nextMP3Delay` exactly as a non-suppressed firing does;
in the Hybrid variant a due suppressed cadence takes no action at
all (no track, no reschedule), deferring the trigger to the first
unsuppressed tick. -/
theorem c8_amended (s : AutoState) (hs : HybridMP3State) (now : ℕ)
    (r : AutoRand) (rTrack : ℤ) (rDelay : ℕ)
    (hdueA : s.nextMP3Delay < now - s.lastMP3Time)
    (hdueH : hs.nextMP3Delay < now - hs.lastMP3Time)
    (hsettleH : ¬ now - hs.modeEntryTime < modeDelayMillis) :
    ((runAutoMP3 s now true r).1.lastMP3Time = now ∧
        (runAutoMP3 s now true r).1.nextMP3Delay = r.mp3Delay ∧
        (runAutoMP3 s now true r).2 = [] ∧
        (runAutoMP3 s now true r).1 = (runAutoMP3 s now false r).1) ∧
      (runAutoMP3Hybrid hs now true rTrack rDelay = (hs, []) ∧
        (runAutoMP3Hybrid hs now false rTrack rDelay).1.lastMP3Time = now) := by
  refine ⟨?_, ?_, ?_⟩
  · simp only [runAutoMP3, if_pos hdueA]
    norm_num
  · simp only [runAutoMP3Hybrid, if_neg hsettleH]
    norm_num
  · simp only [runAutoMP3Hybrid, if_neg hsettleH]
    rw [if_pos ⟨hdueH, trivial⟩]

/-- Witness for `c8_amended` at concrete due states. -/
theorem c8_amended_witness :
    ((initAutoState 0).nextMP3Delay < 4000 - (initAutoState 0).lastMP3Time ∧
        (⟨0, 100, 0⟩ : HybridMP3State).nextMP3Delay <
          4000 - (⟨0, 100, 0⟩ : HybridMP3State).lastMP3Time ∧
        ¬ (4000 : ℕ) - (⟨0, 100, 0⟩ : HybridMP3State).modeEntryTime < modeDelayMillis) ∧
      ((runAutoMP3 (initAutoState 0) 4000 true ⟨0, 25, 0, 10, 7, 9000⟩).1.lastMP3Time = 4000 ∧
        (runAutoMP3 (initAutoState 0) 4000 true ⟨0, 25, 0, 10, 7, 9000⟩).1.nextMP3Delay = 9000 ∧
        (runAutoMP3 (initAutoState 0) 4000 true ⟨0, 25, 0, 10, 7, 9000⟩).2 = [] ∧
        (runAutoMP3 (initAutoState 0) 4000 true ⟨0, 25, 0, 10, 7, 9000⟩).1 =
          (runAutoMP3 (initAutoState 0) 4000 false ⟨0, 25, 0, 10, 7, 9000⟩).1) ∧
      (runAutoMP3Hybrid ⟨0, 100, 0⟩ 4000 true 7 9999 = (⟨0, 100, 0⟩, []) ∧
        (runAutoMP3Hybrid ⟨0, 100, 0⟩ 4000 false 7 9999).1.lastMP3Time = 4000) :=
  ⟨⟨by decide, by decide, by decide⟩,
   c8_amended (initAutoState 0) ⟨0, 100, 0⟩ 4000 ⟨0, 25, 0, 10, 7, 9000⟩ 7 9999
     (by decide) (by decide) (by decide)⟩

lemma runAutoMP3_dome_fields (s : AutoState) (now : ℕ) (sup : Bool) (r : AutoRand) :
    (runAutoMP3 s now sup r).1.domeMoving = s.domeMoving ∧
      (runAutoMP3 s now sup r).1.domeOffset = s.domeOffset ∧
      (runAutoMP3 s now sup r).1.sequenceSpeed = s.sequenceSpeed ∧
      (runAutoMP3 s now sup r).1.domeEndTime = s.domeEndTime ∧
      (runAutoMP3 s now sup r).1.moveCount = s.moveCount ∧
      (runAutoMP3 s now sup r).1.sequenceStarted = s.sequenceStarted := by
  unfold runAutoMP3
  split_ifs <;> simp

/-- Claim C3, counterexample: with a timed dome move in flight
(`domeMoving`, scheduled end 5000) and the kill switch active, the
tick at `now = 6000` — past the scheduled end — emits no command at
all: the stop command is *not* issued when the end time is reached,
because kill suspends the completion check along with the rest of the
automation. -/
theorem c3_counterexample :
    ({ initAutoState 0 with domeMoving := true, domeEndTime := 5000 } : AutoState).domeMoving
        = true ∧
      ({ initAutoState 0 with domeMoving := true, domeEndTime := 5000 } : AutoState).domeEndTime
        ≤ 6000 ∧
      (loopAutomatedMode { initAutoState 0 with domeMoving := true, domeEndTime := 5000 }
          6000 true false ⟨8000, 30, 0, 20, 7, 9000⟩).2 = [] ∧
      (loopAutomatedMode { initAutoState 0 with domeMoving := true, domeEndTime := 5000 }
          6000 true false ⟨8000, 30, 0, 20, 7, 9000⟩).1.domeMoving = true := by
  refine ⟨rfl, by norm_num [initAutoState], ?_, ?_⟩ <;>
    simp [loopAutomatedMode]

/-- Claim C3, amended: while the kill switch is active the automation
is not invoked at all — the in-flight move's actuator command is not
altered (no command of any kind is emitted, and the scheduler state
other than the kill flag is untouched) and no next move or audio
trigger is scheduled; however, the completion check is suspended too,
so the `motor(1, 0)` stop command is issued only on the first tick at
or after the scheduled end time at which kill is inactive — a move in
flight when kill is held past its end time runs long instead of
stopping at the scheduled end. -/
theorem c3_amended (s : AutoState) (now : ℕ) (suppressed : Bool) (r : AutoRand) :
    ((loopAutomatedMode s now true suppressed r).2 = [] ∧
        (loopAutomatedMode s now true suppressed r).1 = { s with lastKillState := true }) ∧
      (s.domeMoving = true → s.domeEndTime ≤ now →
        (loopAutomatedMode s now false suppressed r).2.head? = some (Cmd.motor 1 0) ∧
          (loopAutomatedMode s now false suppressed r).1.domeMoving = false) := by
  constructor
  · constructor <;> simp [loopAutomatedMode]
  · intro hmov hend
    have hrun : runDomeAutomation { s with lastKillState := false } now r =
        ({ s with lastKillState := false, domeMoving := false }, [Cmd.motor 1 0]) := by
      unfold runDomeAutomation
      rw [if_pos (show ({ s with lastKillState := false } : AutoState).domeMoving = true
            from hmov),
        if_pos (show ({ s with lastKillState := false } : AutoState).domeEndTime ≤ now
            from hend)]
    simp only [loopAutomatedMode, Bool.false_eq_true, if_false, hrun]
    rcases runAutoMP3_dome_fields
        ({ s with lastKillState := false, domeMoving := false }) now suppressed r
      with ⟨hm, -⟩
    constructor
    · simp
    · rw [hm]

/-- Witness for `c3_amended`: a move in flight with end time 5000 is
stopped by the tick at 6000 when kill is inactive. -/
theorem c3_amended_witness :
    (({ initAutoState 0 with domeMoving := true, domeEndTime := 5000 } : AutoState).domeMoving
        = true ∧
      ({ initAutoState 0 with domeMoving := true, domeEndTime := 5000 } : AutoState).domeEndTime
        ≤ 6000) ∧
      ((loopAutomatedMode { initAutoState 0 with domeMoving := true, domeEndTime := 5000 }
            6000 true false ⟨8000, 30, 0, 20, 7, 9000⟩).2 = [] ∧
        (loopAutomatedMode { initAutoState 0 with domeMoving := true, domeEndTime := 5000 }
            6000 false false ⟨8000, 30, 0, 20, 7, 9000⟩).2.head? = some (Cmd.motor 1 0)) :=
  ⟨⟨rfl, by norm_num [initAutoState]⟩,
   ⟨(c3_amended { initAutoState 0 with domeMoving := true, domeEndTime := 5000 }
       6000 false ⟨8000, 30, 0, 20, 7, 9000⟩).1.1,
    ((c3_amended { initAutoState 0 with domeMoving := true, domeEndTime := 5000 }
       6000 false ⟨8000, 30, 0, 20, 7, 9000⟩).2 rfl (by norm_num [initAutoState])).1⟩⟩

/-- Claim C4: when the Automated scheduler is idle, its move becomes
due, and the swing count has reached `movesBeforeCenter` or the
accumulated offset is nonzero (the integer form of |offset| > 0.5),
the issued move is a correction move: the motor command's direction
is the sign that reduces the offset toward zero, its duration is
computed from angle = |accumulated offset|, the swing count resets to
0, the sequence speed is unlocked (`sequenceStarted = false`), and
the accumulated offset after the move is exactly zero. -/
theorem c4_correction_move (s : AutoState) (now : ℕ) (r : AutoRand)
    (hmov : s.domeMoving = false)
    (hdue : ¬ now - s.lastMoveTime < s.nextMoveDelay)
    (hsettle : ¬ now - s.modeEntryTime < modeDelayMillis)
    (htrig : movesBeforeCenter ≤ s.moveCount ∨ s.domeOffset ≠ 0)
    (hsp1 : 1 ≤ s.sequenceSpeed) (hsp2 : s.sequenceSpeed ≤ 32)
    (hr1 : 1 ≤ r.speed) (hr2 : r.speed ≤ 32) :
    (runDomeAutomation s now r).2 =
        [Cmd.motor 1 ((if 0 ≤ s.domeOffset then -1 else 1) *
          (if s.sequenceStarted then s.sequenceSpeed else r.speed))] ∧
      (runDomeAutomation s now r).1.moveCount = 0 ∧
      (runDomeAutomation s now r).1.sequenceStarted = false ∧
      (runDomeAutomation s now r).1.domeOffset = 0 ∧
      (runDomeAutomation s now r).1.domeEndTime = now +
        ⌊|((s.domeOffset : ℤ) : ℝ)| *
          domeRate (if s.sequenceStarted then s.sequenceSpeed else r.speed)⌋₊ ∧
      (s.domeOffset ≠ 0 →
        (if 0 ≤ s.domeOffset then (-1 : ℤ) else 1) = - s.domeOffset.sign) := by
  have hguard : ¬ (now - s.lastMoveTime < s.nextMoveDelay ∨
      now - s.modeEntryTime < modeDelayMillis) := by
    push_neg
    exact ⟨le_of_not_lt hdue, le_of_not_lt hsettle⟩
  have hbranch : movesBeforeCenter ≤ s.moveCount ∨
      (1 / 2 : ℝ) < |((s.domeOffset : ℤ) : ℝ)| := by
    rcases htrig with h | h
    · exact Or.inl h
    · right
      have h1 : 1 ≤ |s.domeOffset| := Int.one_le_abs h
      have h2 : (1:ℝ) ≤ |((s.domeOffset : ℤ) : ℝ)| := by
        rw [← Int.cast_abs]
        exact_mod_cast h1
      linarith
  have hsign : s.domeOffset ≠ 0 →
      (if 0 ≤ s.domeOffset then (-1 : ℤ) else 1) = - s.domeOffset.sign := by
    intro h
    rcases lt_trichotomy s.domeOffset 0 with hlt | heq | hgt
    · rw [if_neg (by omega), Int.sign_eq_neg_one_iff_neg.mpr hlt]
      norm_num
    · exact absurd heq h
    · rw [if_pos (by omega), Int.sign_eq_one_iff_pos.mpr hgt]
  have hzero : ∀ sp : ℤ, 1 ≤ sp → sp ≤ 32 →
      truncR ((s.domeOffset : ℝ) + (((if 0 ≤ s.domeOffset then (-1:ℤ) else 1) : ℤ) : ℝ) *
        ((⌊|((s.domeOffset : ℤ) : ℝ)| * domeRate sp⌋₊ : ℝ) / domeRate sp)) = 0 :=
    fun sp h1 h2 => correction_lands_zero s.domeOffset (one_le_domeRate (by omega) h2)
  by_cases hseq : s.sequenceStarted
  · simp only [runDomeAutomation, hmov, Bool.false_eq_true, if_false, if_neg hguard,
      if_pos hbranch, hseq, if_true]
    exact ⟨by trivial, by trivial, by trivial, hzero s.sequenceSpeed hsp1 hsp2,
      by trivial, hsign⟩
  · simp only [runDomeAutomation, hmov, Bool.false_eq_true, if_false, if_neg hguard,
      if_pos hbranch, hseq, if_true]
    exact ⟨by trivial, by trivial, by trivial, hzero r.speed hr1 hr2, by trivial, hsign⟩

/-- Witness for `c4_correction_move`: idle scheduler, move due, swing
count 2 and offset 7, locked sequence speed 30. -/
theorem c4_correction_move_witness :
    (({ initAutoState 0 with moveCount := 2, domeOffset := 7, sequenceStarted := true, sequenceSpeed := 30 } : AutoState).domeMoving = false ∧
      movesBeforeCenter ≤ (2 : ℤ) ∧ (1 : ℤ) ≤ 30 ∧ (30 : ℤ) ≤ 32 ∧ (1 : ℤ) ≤ 25) ∧
      ((runDomeAutomation { initAutoState 0 with moveCount := 2, domeOffset := 7, sequenceStarted := true, sequenceSpeed := 30 } 5000 ⟨8000, 25, 0, 20, 7, 9000⟩).1.domeOffset = 0 ∧
        (runDomeAutomation { initAutoState 0 with moveCount := 2, domeOffset := 7, sequenceStarted := true, sequenceSpeed := 30 } 5000 ⟨8000, 25, 0, 20, 7, 9000⟩).1.moveCount = 0 ∧
        (runDomeAutomation { initAutoState 0 with moveCount := 2, domeOffset := 7, sequenceStarted := true, sequenceSpeed := 30 } 5000 ⟨8000, 25, 0, 20, 7, 9000⟩).1.sequenceStarted = false ∧
        (runDomeAutomation { initAutoState 0 with moveCount := 2, domeOffset := 7, sequenceStarted := true, sequenceSpeed := 30 } 5000 ⟨8000, 25, 0, 20, 7, 9000⟩).2 = [Cmd.motor 1 (-1 * 30)]) := by
  have h := c4_correction_move
    { initAutoState 0 with moveCount := 2, domeOffset := 7, sequenceStarted := true, sequenceSpeed := 30 } 5000 ⟨8000, 25, 0, 20, 7, 9000⟩
    rfl (by decide) (by decide) (Or.inl (by decide)) (by decide) (by decide)
    (by decide) (by decide)
  refine ⟨⟨rfl, by decide, by decide, by decide, by decide⟩,
    h.2.2.2.1, h.2.1, h.2.2.1, ?_⟩
  have h2 := h.1
  norm_num at h2 ⊢
  exact h2

/-- One `runDomeAutomation` call preserves the dome invariant:
|offset| bounded by the maximum free-move angle and the locked
sequence speed within (0, `maxSpeed`]. -/
lemma runDomeAutomation_inv (s : AutoState) (now : ℕ) (r : AutoRand)
    (hr : ValidRand r) (hoff : |s.domeOffset| ≤ domeMaxAngle)
    (hsp1 : 1 ≤ s.sequenceSpeed) (hsp2 : s.sequenceSpeed ≤ 32) :
    |(runDomeAutomation s now r).1.domeOffset| ≤ domeMaxAngle ∧
      1 ≤ (runDomeAutomation s now r).1.sequenceSpeed ∧
      (runDomeAutomation s now r).1.sequenceSpeed ≤ 32 := by
  obtain ⟨-, -, hv1, hv2, -, ha1, ha2⟩ := hr
  have hv1' : (25:ℤ) ≤ r.speed := hv1
  have hv2' : r.speed ≤ 32 := hv2
  have ha1' : (10:ℤ) ≤ r.angle := ha1
  have ha2' : r.angle ≤ 45 := ha2
  by_cases h1 : s.domeMoving = true
  · unfold runDomeAutomation
    rw [if_pos h1]
    split_ifs <;> exact ⟨hoff, hsp1, hsp2⟩
  · by_cases h3 : now - s.lastMoveTime < s.nextMoveDelay ∨
        now - s.modeEntryTime < modeDelayMillis
    · unfold runDomeAutomation
      rw [if_neg h1, if_pos h3]
      exact ⟨hoff, hsp1, hsp2⟩
    · by_cases h4 : movesBeforeCenter ≤ s.moveCount ∨
          (1 / 2 : ℝ) < |((s.domeOffset : ℤ) : ℝ)|
      · -- correction move: the offset lands on 0
        by_cases hseq : s.sequenceStarted
        · simp only [runDomeAutomation, h1, Bool.false_eq_true, if_false, if_neg h3,
            if_pos h4, hseq, if_true]
          refine ⟨?_, hsp1, hsp2⟩
          rw [correction_lands_zero s.domeOffset (one_le_domeRate (by omega) hsp2)]
          norm_num [domeMaxAngle]
        · simp only [runDomeAutomation, h1, Bool.false_eq_true, if_false, if_neg h3,
            if_pos h4, hseq, if_true]
          refine ⟨?_, by omega, by omega⟩
          rw [correction_lands_zero s.domeOffset (one_le_domeRate (by omega) hv2')]
          norm_num [domeMaxAngle]
      · -- free move: only allowed from offset 0
        have ho : s.domeOffset = 0 := by
          push_neg at h4
          have h5 : |((s.domeOffset : ℤ) : ℝ)| ≤ 1 / 2 := h4.2
          rw [← Int.cast_abs] at h5
          by_contra hne
          have h6 : (1:ℤ) ≤ |s.domeOffset| := Int.one_le_abs hne
          have h7 : (1:ℝ) ≤ ((|s.domeOffset| : ℤ) : ℝ) := by exact_mod_cast h6
          linarith
        have key : ∀ sp : ℤ, 1 ≤ sp → sp ≤ 32 → ∀ m : ℝ, 0 < m → ∀ x : ℝ,
            (x = ((⌊(r.angle : ℝ) * (domeRate sp * m)⌋₊ : ℝ) / (domeRate sp * m)) ∨
              x = -((⌊(r.angle : ℝ) * (domeRate sp * m)⌋₊ : ℝ) / (domeRate sp * m))) →
            |truncR ((s.domeOffset : ℝ) + x)| ≤ domeMaxAngle := by
          intro sp hs1 hs2 m hm x hx
          have hrate : 0 < domeRate sp * m := mul_pos (domeRate_pos (by omega)) hm
          have hang0 : (0:ℝ) ≤ (r.angle : ℝ) := by
            exact_mod_cast (by omega : (0:ℤ) ≤ r.angle)
          have hang45 : ((r.angle : ℤ) : ℝ) ≤ 45 := by exact_mod_cast ha2'
          rcases actualAngle_bounds hrate hang0 with ⟨hb0, hb1, -⟩
          have habs : |x| ≤ ((45:ℤ) : ℝ) := by
            rcases hx with h | h <;> subst h
            · rw [abs_of_nonneg hb0]
              push_cast
              linarith
            · rw [abs_neg, abs_of_nonneg hb0]
              push_cast
              linarith
          have h45 := truncR_abs_le habs
          rw [ho]
          norm_num at h45 ⊢
          exact h45
        by_cases hseq : s.sequenceStarted <;>
          by_cases hdb : r.dirBit = 0 <;>
          simp only [runDomeAutomation, h1, Bool.false_eq_true, if_false, if_neg h3,
            if_pos h4, if_neg h4, hseq, hdb, if_true, if_false] <;>
          norm_num <;>
          refine ⟨?_, by omega, by omega⟩
        · exact key s.sequenceSpeed hsp1 hsp2 (24/25) (by norm_num) _ (Or.inr rfl)
        · exact key s.sequenceSpeed hsp1 hsp2 (53/50) (by norm_num) _ (Or.inl rfl)
        · exact key r.speed (by omega) (by omega) (24/25) (by norm_num) _ (Or.inr rfl)
        · exact key r.speed (by omega) (by omega) (53/50) (by norm_num) _ (Or.inl rfl)

/-- The dome-offset invariant over all reachable Automated-mode
states. -/
lemma autoInv {t0 : ℕ} {s : AutoState} (h : AutoReach t0 s) :
    |s.domeOffset| ≤ domeMaxAngle ∧ 1 ≤ s.sequenceSpeed ∧ s.sequenceSpeed ≤ 32 := by
  induction h with
  | init =>
    refine ⟨?_, ?_, ?_⟩ <;> norm_num [initAutoState, domeMaxAngle, baseSpeed]
  | step s now kill suppressed r hreach hvalid ih =>
    rcases ih with ⟨ih1, ih2, ih3⟩
    cases kill with
    | true =>
      simp only [loopAutomatedMode, if_true]
      exact ⟨ih1, ih2, ih3⟩
    | false =>
      simp only [loopAutomatedMode, Bool.false_eq_true, if_false]
      have hinv := runDomeAutomation_inv { s with lastKillState := false } now r hvalid
        ih1 ih2 ih3
      rcases runAutoMP3_dome_fields
          (runDomeAutomation { s with lastKillState := false } now r).1 now suppressed r
        with ⟨-, hf2, hf3, -⟩
      rw [hf2, hf3]
      exact hinv

/-- Claim C5: over every run of the Automated scheduler — any number
of `loopAutomatedMode` ticks from the initial state, with every
`random(...)` draw in its documented range — the accumulated dome
offset stays bounded by the configured maximum free-move angle
(`domeMaxAngle` = 45°): free moves are only issued from a centred
(zero) offset and add at most `domeMaxAngle`, and a correction move
returns the offset to zero whenever the swing count or |offset|
exceeds the thresholds. -/
theorem c5_offset_bounded (t0 : ℕ) (s : AutoState) (h : AutoReach t0 s) :
    |s.domeOffset| ≤ domeMaxAngle :=
  (autoInv h).1

/-- Witness for `c5_offset_bounded`: a two-tick reachable run (one
idle tick, one tick that is free to move). -/
theorem c5_offset_bounded_witness :
    AutoReach 0 ((loopAutomatedMode (initAutoState 0) 4000 false false
        ⟨8000, 25, 0, 20, 7, 9000⟩).1) ∧
      |((loopAutomatedMode (initAutoState 0) 4000 false false
        ⟨8000, 25, 0, 20, 7, 9000⟩).1).domeOffset| ≤ domeMaxAngle := by
  have hr : ValidRand ⟨8000, 25, 0, 20, 7, 9000⟩ := by
    refine ⟨?_, ?_, ?_, ?_, ?_, ?_, ?_⟩ <;> decide
  have hreach : AutoReach 0 ((loopAutomatedMode (initAutoState 0) 4000 false false
      ⟨8000, 25, 0, 20, 7, 9000⟩).1) :=
    AutoReach.step _ 4000 false false _ AutoReach.init hr
  exact ⟨hreach, c5_offset_bounded 0 _ hreach⟩

end ShadowRC
